import Mathlib

/-!
Verification of the in-memory vector similarity search index implemented in
`src/search.mjs`.  The development shallowly embeds the JavaScript source:

* numbers are modelled by the real numbers `ℝ` (the idealisation of the
  IEEE doubles used by the source; division by zero is Lean's `x / 0 = 0`
  where JavaScript produces `NaN` — the spec leaves zero-magnitude vectors
  explicitly undefined);
* a stored vector slot is an `Option (List ℝ)`: `none` models the JavaScript
  `undefined` that `addVectors` pushes when its `vectors` argument is shorter
  than its `documents` argument;
* a JavaScript function that can throw is modelled with `Option` results
  (`none` = an exception escapes);
* `Array.prototype.sort` with the comparator `(a, b) => b.score - a.score`
  is required by ECMAScript to be a stable sort, and for this consistent
  comparator its result is the unique stable reordering that is
  non-increasing in `score`; it is modelled by the stable insertion sort
  `List.insertionSort` with the relation "`a` may precede `b` iff
  `b.score ≤ a.score`".
-/

namespace VectorSearch

/-- An embedding vector: an ordered sequence of numeric components. -/
abbrev Vec := List ℝ

/-- A document record (the LangChain `Document` used by `src/search.mjs`):
text content plus metadata.  Metadata objects are modelled as association
lists of string keys and values; the program only ever stores
`{source: product.id}`. -/
structure Document where
  pageContent : String
  metadata : List (String × String)

/-- A metadata filter object (the `filter`/`params` arguments).  The source
never reads its contents, only — in `delete` — whether it is absent or has no
keys. -/
abbrev Filter := List (String × String)

/-- The store state of `MemoryVectorStore` (src/search.mjs lines 7–13):
parallel arrays `this.documents` and `this.vectors`.  A slot of `vectors` is
`none` exactly when the JavaScript array holds `undefined` there. -/
structure MemoryVectorStore where
  documents : List Document
  vectors : List (Option Vec)

/-- The freshly constructed store (constructor, lines 10–12): both arrays
empty. -/
def MemoryVectorStore.empty : MemoryVectorStore :=
  { documents := [], vectors := [] }

/-- The store's document count (the spec's `size()` observable). -/
def MemoryVectorStore.size (store : MemoryVectorStore) : Nat :=
  store.documents.length

/-- The parallel-array invariant of the data model:
`len(documents) == len(vectors)`. -/
def MemoryVectorStore.wf (store : MemoryVectorStore) : Prop :=
  store.documents.length = store.vectors.length

/-- Lines 25–33, `addVectors(vectors, documents)`: a loop over
`documents.length` pushes `documents[i]` and `vectors[i]` in lock-step and
records `(this.documents.length - 1).toString()` after each push, i.e. the id
`oldLength + i` rendered as a string.  `vectors[i]` is JavaScript `undefined`
(modelled `none`) when `i ≥ vectors.length`; extra vectors beyond
`documents.length` are silently dropped.  There is no dimension check and no
failure path.  The unused `options` parameter is omitted. -/
def MemoryVectorStore.addVectors (store : MemoryVectorStore) (vectors : List Vec)
    (documents : List Document) : MemoryVectorStore × List String :=
  ({ documents := store.documents ++ documents,
     vectors := store.vectors ++ (List.range documents.length).map fun i => vectors[i]? },
   (List.range documents.length).map fun i => toString (store.documents.length + i))

/-- Lines 19–23, `addDocuments(documents)`: embed all page contents in one
batch call and hand the resulting vectors to `addVectors`.  The embedding
provider `this.embeddings.embedDocuments` is an external collaborator, passed
here as the function `embedDocuments`.  There is no check that the provider
returned one vector per text. -/
def MemoryVectorStore.addDocuments (store : MemoryVectorStore)
    (embedDocuments : List String → List Vec) (documents : List Document) :
    MemoryVectorStore × List String :=
  let texts := documents.map fun doc => doc.pageContent
  let vectors := embedDocuments texts
  store.addVectors vectors documents

/-- Lines 37–40: `vector.reduce((sum, val, i) => sum + val * query[i], 0)`,
an indexed left fold over `vector`.  An out-of-range `query[i]` is modelled as
the component `0` (JavaScript would give `undefined` and a `NaN` sum; all
spec-level claims concern dimension-consistent inputs). -/
def dotProduct (vector query : Vec) : ℝ :=
  vector.enum.foldl (fun sum p => sum + p.2 * query.getD p.1 0) 0

/-- The operand of `Math.sqrt` in lines 41–46:
`v.reduce((sum, val) => sum + val * val, 0)`. -/
def sumSquares (v : Vec) : ℝ :=
  v.foldl (fun sum val => sum + val * val) 0

/-- Lines 41–46: `Math.sqrt(v.reduce((sum, val) => sum + val * val, 0))`. -/
noncomputable def magnitude (v : Vec) : ℝ :=
  Real.sqrt (sumSquares v)

/-- Line 47: `dotProduct / (magnitudeA * magnitudeB)`, the cosine similarity
of a stored vector and the query. -/
noncomputable def similarity (vector query : Vec) : ℝ :=
  dotProduct vector query / (magnitude vector * magnitude query)

/-- Lines 36–49: `this.vectors.map((vector, idx) => ({idx, score}))` — each
stored vector is scored against the query, tagged with its index. -/
noncomputable def scoreEntries (vecs : List Vec) (query : Vec) : List (Nat × ℝ) :=
  vecs.enum.map fun p => (p.1, similarity p.2 query)

/-- Line 51: `scores.sort((a, b) => b.score - a.score)` — the ECMAScript
stable sort, descending by score, modelled by the stable insertion sort with
"`a` may precede `b` iff `b.score ≤ a.score`". -/
noncomputable def sortScores (scores : List (Nat × ℝ)) : List (Nat × ℝ) :=
  scores.insertionSort fun a b => b.2 ≤ a.2

/-- Line 53: `Array.prototype.slice(0, k)` for an integer `k`: a negative end
index counts from the end of the array (`max(length + k, 0)` elements), a
non-negative one is clamped to the length. -/
def jsSlice {α : Type} (l : List α) (k : Int) : List α :=
  if k < 0 then l.take (l.length - (-k).toNat) else l.take k.toNat

/-- Lines 51–53 combined: the scored index/score pairs that survive sorting
and slicing; line 54 maps them to the returned `[document, score]` pairs. -/
noncomputable def rankedEntries (vecs : List Vec) (query : Vec) (k : Int) : List (Nat × ℝ) :=
  jsSlice (sortScores (scoreEntries vecs query)) k

/-- Sequences a list of JavaScript array slots: `none` iff some slot is
`undefined`.  Used to model that line 37 (`vector.reduce`) throws a
`TypeError` as soon as the mapped-over stored vector is `undefined`. -/
def allSome {α : Type} : List (Option α) → Option (List α)
  | [] => some []
  | none :: _ => none
  | some a :: rest => (allSome rest).map fun l => a :: l

/-- Lines 35–55, `similaritySearchVectorWithScore(query, k, filter)`: score
every stored vector (throwing — `none` — if any stored slot is `undefined`),
sort descending by score, `slice(0, k)`, and map each surviving entry to the
pair `[this.documents[idx], score]` (the document lookup itself yielding
`undefined`/`none` when `idx` is out of range of `documents`).  The `filter`
parameter is bound but never read. -/
noncomputable def MemoryVectorStore.similaritySearchVectorWithScore
    (store : MemoryVectorStore) (query : Vec) (k : Int) (filter : Option Filter) :
    Option (List (Option Document × ℝ)) :=
  (allSome store.vectors).map fun vecs =>
    (rankedEntries vecs query k).map fun e => (store.documents[e.1]?, e.2)

/-- Lines 57–65, `delete(params)`: if `params` is absent (`none`) or has no
keys (`[]`), both arrays are replaced by empty ones; otherwise the call does
nothing — and signals no error. -/
def MemoryVectorStore.delete (store : MemoryVectorStore) (params : Option Filter) :
    MemoryVectorStore :=
  match params with
  | none => { documents := [], vectors := [] }
  | some ps => if ps.isEmpty then { documents := [], vectors := [] } else store

/-- A catalog item as loaded from `products.json` (lines 68, 72–79).  `price`
is a JSON number whose only use is string interpolation, so it is carried
here in its rendered decimal form. -/
structure Product where
  id : String
  name : String
  description : String
  price : String

/-- Lines 70–83, `createStore(products)`: build one `Document` per product
with content `"<name> - <description> - <price>"` and metadata
`{source: product.id}`, then populate a fresh store through `addDocuments`.
The promise resolves to the store itself (the ids are dropped). -/
def createStore (embedDocuments : List String → List Vec) (products : List Product) :
    MemoryVectorStore :=
  let docs := products.map fun product =>
    ({ pageContent := product.name ++ " - " ++ product.description ++ " - " ++ product.price,
       metadata := [("source", product.id)] } : Document)
  let vectorStore := MemoryVectorStore.empty
  (vectorStore.addDocuments embedDocuments docs).1

/-- The shaped result of `search` (lines 97–101):
`{...doc.metadata, content: doc.pageContent, score}`.  The spread metadata
keys are kept separate from the two fixed keys; the program's metadata only
ever holds the key `"source"`, so no collision arises. -/
structure SearchResult where
  fields : List (String × String)
  content : String
  score : ℝ

/-- Maps a throwing callback over a JavaScript array, element by element:
`none` as soon as the callback throws.  Used to model line 97's
`results.map(([doc, score]) => ...)`, whose body throws a `TypeError` when a
pair's document slot is `undefined`. -/
def mapOption {α β : Type} (f : α → Option β) : List α → Option (List β)
  | [] => some []
  | a :: rest => (f a).bind fun b => (mapOption f rest).map fun bs => b :: bs

/-- Lines 90–102, `search(query, count)`: embed the query text (external
provider `embedQuery`), call `similaritySearchVectorWithScore` with the
filter argument omitted (`undefined`, modelled `none`), and flatten each
`[doc, score]` pair into a result record — throwing (`none`) if a pair's
document slot is `undefined`.  The source's default `count` is `3`. -/
noncomputable def search (embedQuery : String → Vec) (store : MemoryVectorStore)
    (query : String) (count : Int) : Option (List SearchResult) :=
  let queryEmbedding := embedQuery query
  (store.similaritySearchVectorWithScore queryEmbedding count none).bind fun results =>
    mapOption (fun r => r.1.map fun doc =>
      { fields := doc.metadata, content := doc.pageContent, score := r.2 }) results

/-! ### Shared lemmas and concrete fixtures -/

/-- A concrete two-dimensional fixture document. -/
def docA : Document := { pageContent := "a", metadata := [("source", "a")] }

/-- A second concrete fixture document. -/
def docB : Document := { pageContent := "b", metadata := [("source", "b")] }

lemma allSome_length {α : Type} :
    ∀ {l : List (Option α)} {l' : List α}, allSome l = some l' → l'.length = l.length := by
  intro l
  induction l with
  | nil => intro l' h; simp [allSome] at h; simp [← h]
  | cons a rest ih =>
    intro l' h
    match a with
    | none => simp [allSome] at h
    | some x =>
      simp only [allSome, Option.map_eq_some'] at h
      obtain ⟨m, hm, rfl⟩ := h
      simp [ih hm]

/-! ### C10: the filter argument of `similaritySearchVectorWithScore` is dead -/

/-- C10: the `filter` parameter of `similaritySearchVectorWithScore` has no
effect on the result — for every store state, query vector and `k`, any two
filter arguments produce identical results (no metadata filtering is ever
applied during search). -/
theorem similaritySearch_ignores_filter (store : MemoryVectorStore) (query : Vec)
    (k : Int) (f1 f2 : Option Filter) :
    store.similaritySearchVectorWithScore query k f1 =
      store.similaritySearchVectorWithScore query k f2 := rfl

/-! ### C5: `delete` with a non-empty filter is a no-op -/

/-- C5: calling `delete` with a non-empty filter leaves the store — its
documents and vectors arrays and hence its size — completely unchanged, and
signals no error (the function is total and returns the store as is). -/
theorem delete_nonempty_filter_noop (store : MemoryVectorStore) (ps : Filter)
    (h : ps ≠ []) : store.delete (some ps) = store := by
  simp only [MemoryVectorStore.delete, List.isEmpty_iff, if_neg h]

/-- Witness for C5 at a concrete store and the spec's `{anything: "x"}`
filter. -/
theorem delete_nonempty_filter_noop_witness :
    ([("anything", "x")] : Filter) ≠ [] ∧
      (MemoryVectorStore.mk [docA] [some [1]]).delete (some [("anything", "x")]) =
        MemoryVectorStore.mk [docA] [some [1]] :=
  ⟨by simp, delete_nonempty_filter_noop _ _ (by simp)⟩

/-! ### C7: the parallel-array invariant -/

/-- C7: `len(documents) == len(vectors)` holds in every state observable
between operations: it holds for the empty store and is preserved by
`addVectors` (with arbitrary, even mismatched, arguments), by
`addDocuments` (with an arbitrary embedding provider) and by `delete`. -/
theorem store_wf_invariant :
    MemoryVectorStore.empty.wf ∧
    (∀ (store : MemoryVectorStore) (vectors : List Vec) (documents : List Document),
      store.wf → (store.addVectors vectors documents).1.wf) ∧
    (∀ (store : MemoryVectorStore) (embed : List String → List Vec)
      (documents : List Document),
      store.wf → (store.addDocuments embed documents).1.wf) ∧
    (∀ (store : MemoryVectorStore) (params : Option Filter),
      store.wf → (store.delete params).wf) := by
  refine ⟨rfl, ?_, ?_, ?_⟩
  · intro s v d h
    simp [MemoryVectorStore.wf, MemoryVectorStore.addVectors] at h ⊢
    omega
  · intro s e d h
    simp [MemoryVectorStore.wf, MemoryVectorStore.addDocuments,
      MemoryVectorStore.addVectors] at h ⊢
    omega
  · intro s params h
    match params with
    | none => rfl
    | some ps =>
      simp only [MemoryVectorStore.delete]
      split
      · rfl
      · exact h

/-- Witness for C7: the invariant components applied at concrete states. -/
theorem store_wf_invariant_witness :
    (MemoryVectorStore.mk [docA] [some [1]]).wf ∧
      ((MemoryVectorStore.mk [docA] [some [1]]).addVectors [] [docB]).1.wf ∧
      ((MemoryVectorStore.mk [docA] [some [1]]).delete none).wf :=
  ⟨rfl, store_wf_invariant.2.1 _ [] [docB] rfl, store_wf_invariant.2.2.2 _ none rfl⟩

/-! ### C3: there is no dimension check in `addVectors` -/

/-- Counterexample to C3: a store whose established dimension is 2 accepts a
3-dimensional vector.  `addVectors` does not fail with `DimensionMismatch`
(it has no failure path at all): it returns the grown store — now holding the
mismatched vector — together with the fresh id `"1"`. -/
theorem addVectors_accepts_mismatched_dimension :
    (MemoryVectorStore.mk [docA] [some [(1 : ℝ), 2]]).addVectors [[1, 2, 3]] [docB] =
      (MemoryVectorStore.mk [docA, docB] [some [(1 : ℝ), 2], some [1, 2, 3]], ["1"]) := by
  rfl

/-- C3 as amended: `addVectors` performs no dimension check whatever.  For
every store and arguments it succeeds (the operation is total, with no error
outcome), appends all the documents — mismatched or missing vectors
included — growing the size by `documents.length`, and the first batch into
an empty store likewise undergoes no check (no dimension is ever
established). -/
theorem addVectors_never_checks_dimension (store : MemoryVectorStore)
    (vectors : List Vec) (documents : List Document) :
    (store.addVectors vectors documents).1.documents = store.documents ++ documents ∧
      (store.addVectors vectors documents).1.size = store.size + documents.length ∧
      (store.addVectors vectors documents).1.vectors.length =
        store.vectors.length + documents.length := by
  refine ⟨rfl, ?_, ?_⟩ <;>
    simp [MemoryVectorStore.addVectors, MemoryVectorStore.size]

/-! ### C4: there is no provider-count check in `addDocuments` -/

/-- Counterexample to C4: with an embedding provider returning zero vectors
for one submitted text, `addDocuments` does not fail with
`ProviderContractViolation`; it appends the mismatched pair — the document
alongside an `undefined` (modelled `none`) vector slot — and returns id
`"0"`. -/
theorem addDocuments_accepts_mismatched_count :
    MemoryVectorStore.empty.addDocuments (fun _ => []) [docA] =
      (MemoryVectorStore.mk [docA] [none], ["0"]) := by
  rfl

/-- C4 as amended: `addDocuments` performs no count check on the provider's
reply.  For every provider and batch it succeeds (no error outcome), always
appending exactly `documents.length` entries: missing vectors are stored as
`undefined` slots and surplus vectors are silently dropped. -/
theorem addDocuments_never_checks_count (store : MemoryVectorStore)
    (embed : List String → List Vec) (documents : List Document) :
    (store.addDocuments embed documents).1.documents = store.documents ++ documents ∧
      (store.addDocuments embed documents).1.size = store.size + documents.length ∧
      (store.addDocuments embed documents).1.vectors.length =
        store.vectors.length + documents.length := by
  refine ⟨rfl, ?_, ?_⟩ <;>
    simp [MemoryVectorStore.addDocuments, MemoryVectorStore.addVectors,
      MemoryVectorStore.size]

/-! ### C6: `delete` with no (or an empty) filter clears the store -/

/-- C6: calling `delete` with no filter or an empty filter makes the store's
size 0, a subsequent `search` then returns an empty sequence (for every
embedding provider, query text and count), and the next batch append assigns
identifiers starting again at `"0"` (the ids are exactly
`"0", "1", …` up to the batch length). -/
theorem delete_empty_filter_clears (store : MemoryVectorStore)
    (params : Option Filter) (h : params = none ∨ params = some []) :
    (store.delete params).size = 0 ∧
      (∀ (embedQ : String → Vec) (q : String) (c : Int),
        search embedQ (store.delete params) q c = some []) ∧
      (∀ (vectors : List Vec) (documents : List Document),
        ((store.delete params).addVectors vectors documents).2 =
          (List.range documents.length).map fun i => toString i) := by
  have hd : store.delete params = MemoryVectorStore.mk [] [] := by
    rcases h with h | h <;> simp [MemoryVectorStore.delete, h]
  refine ⟨by simp [hd, MemoryVectorStore.size], ?_, ?_⟩
  · intro embedQ q c
    rw [hd]
    simp [search, MemoryVectorStore.similaritySearchVectorWithScore, allSome,
      rankedEntries, sortScores, scoreEntries, jsSlice, mapOption]
  · intro vectors documents
    rw [hd]
    simp [MemoryVectorStore.addVectors]

/-- Witness for C6 at a concrete populated store, cleared with no filter. -/
theorem delete_empty_filter_clears_witness :
    ((none : Option Filter) = none ∨ (none : Option Filter) = some []) ∧
      ((MemoryVectorStore.mk [docA] [some [1]]).delete none).size = 0 ∧
      (∀ (embedQ : String → Vec) (q : String) (c : Int),
        search embedQ ((MemoryVectorStore.mk [docA] [some [1]]).delete none) q c =
          some []) ∧
      (∀ (vectors : List Vec) (documents : List Document),
        (((MemoryVectorStore.mk [docA] [some [1]]).delete none).addVectors
            vectors documents).2 =
          (List.range documents.length).map fun i => toString i) :=
  ⟨Or.inl rfl, delete_empty_filter_clears (MemoryVectorStore.mk [docA] [some [1]])
    none (Or.inl rfl)⟩

/-! ### Lemmas about the similarity engine -/

lemma foldl_add_eq {α : Type} (f : α → ℝ) :
    ∀ (l : List α) (s : ℝ), l.foldl (fun acc x => acc + f x) s = s + (l.map f).sum := by
  intro l
  induction l with
  | nil => intro s; simp
  | cons a rest ih =>
    intro s
    simp only [List.foldl_cons, List.map_cons, List.sum_cons, ih, add_assoc]

lemma dotProduct_eq (vector query : Vec) :
    dotProduct vector query = (vector.enum.map fun p => p.2 * query.getD p.1 0).sum := by
  unfold dotProduct
  exact (foldl_add_eq (fun p => p.2 * query.getD p.1 0) vector.enum 0).trans (zero_add _)

lemma sumSquares_eq (v : Vec) : sumSquares v = (v.map fun x => x * x).sum := by
  unfold sumSquares
  exact (foldl_add_eq (fun x => x * x) v 0).trans (zero_add _)

lemma dotProduct_self (v : Vec) : dotProduct v v = sumSquares v := by
  rw [dotProduct_eq, sumSquares_eq]
  have h1 : (v.enum.map fun p => p.2 * v.getD p.1 0) = v.enum.map fun p => p.2 * p.2 := by
    apply List.map_congr_left
    intro p hp
    have hp' : v[p.1]? = some p.2 := List.mem_enum_iff_getElem?.mp hp
    simp [List.getD_eq_getElem?_getD, hp']
  have h2 : (v.enum.map fun p => p.2 * p.2) = (v.enum.map Prod.snd).map fun x => x * x := by
    rw [List.map_map]
    rfl
  rw [h1, h2]
  have h3 : v.enum.map Prod.snd = v := List.enumFrom_map_snd 0 v
  rw [h3]

lemma sumSquares_nonneg (v : Vec) : 0 ≤ sumSquares v := by
  rw [sumSquares_eq]
  apply List.sum_nonneg
  intro x hx
  obtain ⟨y, _, rfl⟩ := List.mem_map.mp hx
  exact mul_self_nonneg y

lemma sumSquares_pos (v : Vec) (x : ℝ) (hx : x ∈ v) (h0 : x ≠ 0) : 0 < sumSquares v := by
  rw [sumSquares_eq]
  have hle : x * x ≤ (v.map fun x => x * x).sum := by
    apply List.single_le_sum
    · intro y hy
      obtain ⟨z, _, rfl⟩ := List.mem_map.mp hy
      exact mul_self_nonneg z
    · exact List.mem_map_of_mem _ hx
  exact lt_of_lt_of_le (mul_self_pos.mpr h0) hle

/-! ### C8: self-similarity -/

/-- C8: for every non-zero vector `v` (some component differs from 0), the
cosine similarity the engine computes for `v` against itself equals 1. -/
theorem similarity_self_eq_one (v : Vec) (h : ∃ x ∈ v, x ≠ 0) :
    similarity v v = 1 := by
  obtain ⟨x, hx, h0⟩ := h
  have hpos := sumSquares_pos v x hx h0
  unfold similarity magnitude
  rw [dotProduct_self, Real.mul_self_sqrt hpos.le, div_self hpos.ne']

/-- Witness for C8 at the concrete non-zero vector `[1]`. -/
theorem similarity_self_eq_one_witness :
    (∃ x ∈ ([1] : Vec), x ≠ 0) ∧ similarity [1] [1] = 1 :=
  ⟨⟨1, by simp, one_ne_zero⟩, similarity_self_eq_one [1] ⟨1, by simp, one_ne_zero⟩⟩

/-! ### Stability of the modelled sort -/

lemma orderedInsert_pairwise_stable {α : Type} (r q : α → α → Prop) [DecidableRel r]
    (total : ∀ a b, r a b ∨ r b a) (htrans : ∀ a b c, r a b → r b c → r a c) (a : α)
    (L : List α) (hL : L.Pairwise fun x y => r x y ∧ (r y x → q x y))
    (ha : ∀ x ∈ L, q a x) :
    (L.orderedInsert r a).Pairwise fun x y => r x y ∧ (r y x → q x y) := by
  induction L with
  | nil => simp
  | cons b L ih =>
    rcases List.pairwise_cons.mp hL with ⟨hbL, hLL⟩
    rw [List.orderedInsert]
    by_cases hab : r a b
    · rw [if_pos hab]
      refine List.pairwise_cons.mpr ⟨?_, hL⟩
      intro x hx
      rcases List.mem_cons.mp hx with rfl | hx
      · exact ⟨hab, fun _ => ha x (List.mem_cons_self _ _)⟩
      · exact ⟨htrans a b x hab (hbL x hx).1, fun _ => ha x (List.mem_cons_of_mem _ hx)⟩
    · rw [if_neg hab]
      refine List.pairwise_cons.mpr
        ⟨?_, ih hLL fun x hx => ha x (List.mem_cons_of_mem _ hx)⟩
      intro x hx
      rcases (List.mem_orderedInsert r).mp hx with hxa | hx
      · subst hxa
        exact ⟨(total x b).resolve_left hab, fun h => absurd h hab⟩
      · exact hbL x hx

lemma insertionSort_pairwise_stable {α : Type} (r q : α → α → Prop) [DecidableRel r]
    (total : ∀ a b, r a b ∨ r b a) (htrans : ∀ a b c, r a b → r b c → r a c)
    (l : List α) (hl : l.Pairwise q) :
    (l.insertionSort r).Pairwise fun x y => r x y ∧ (r y x → q x y) := by
  induction l with
  | nil => simp
  | cons a l ih =>
    rcases List.pairwise_cons.mp hl with ⟨hal, hll⟩
    rw [List.insertionSort]
    exact orderedInsert_pairwise_stable r q total htrans a _ (ih hll)
      fun x hx => hal x ((List.mem_insertionSort r).mp hx)

lemma enum_pairwise_fst {α : Type} (l : List α) :
    l.enum.Pairwise fun p q => p.1 < q.1 := by
  rw [List.pairwise_iff_getElem]
  intro i j hi hj hij
  simp only [List.enum_length] at hi hj
  simp [List.getElem_enum, hij]

lemma scoreEntries_pairwise_fst (vecs : List Vec) (query : Vec) :
    (scoreEntries vecs query).Pairwise fun p q => p.1 < q.1 := by
  unfold scoreEntries
  exact (enum_pairwise_fst vecs).map _ fun a b h => h

lemma length_sortScores (scores : List (Nat × ℝ)) :
    (sortScores scores).length = scores.length := by
  unfold sortScores
  exact List.length_insertionSort _ _

lemma length_scoreEntries (vecs : List Vec) (query : Vec) :
    (scoreEntries vecs query).length = vecs.length := by
  unfold scoreEntries
  simp

lemma length_jsSlice {α : Type} (l : List α) (k : Int) :
    (jsSlice l k).length =
      if k < 0 then l.length - (-k).toNat else min k.toNat l.length := by
  unfold jsSlice
  split
  · simp only [List.length_take]
    omega
  · simp [List.length_take]

/-! ### C2: descending scores, ties by ascending identifier -/

/-- C2: the ranked entry sequence underlying the value returned by the top-k
search (each entry being an identifier/score pair; the returned sequence maps
the identifier to the stored document) is sorted by non-increasing score with
ties broken by ascending identifier, and the returned sequence itself is
sorted by non-increasing score.  The ECMAScript sort with the comparator
`(a, b) => b.score - a.score` is stable, which is what enforces the tie-break
here. -/
theorem topK_sorted_with_tiebreak :
    (∀ (vecs : List Vec) (query : Vec) (k : Int),
      (rankedEntries vecs query k).Pairwise fun a b =>
        b.2 < a.2 ∨ (a.2 = b.2 ∧ a.1 < b.1)) ∧
    (∀ (store : MemoryVectorStore) (query : Vec) (k : Int) (filter : Option Filter),
      ((store.similaritySearchVectorWithScore query k filter).getD []).Pairwise
        fun a b => b.2 ≤ a.2) := by
  have key : ∀ (vecs : List Vec) (query : Vec),
      (sortScores (scoreEntries vecs query)).Pairwise fun a b =>
        b.2 ≤ a.2 ∧ (a.2 ≤ b.2 → a.1 < b.1) := by
    intro vecs query
    unfold sortScores
    exact insertionSort_pairwise_stable _ _ (fun a b => le_total b.2 a.2)
      (fun a b c hab hbc => le_trans hbc hab) _ (scoreEntries_pairwise_fst vecs query)
  have ranked_le : ∀ (vecs : List Vec) (query : Vec) (k : Int),
      (rankedEntries vecs query k).Pairwise fun a b => b.2 ≤ a.2 := by
    intro vecs query k
    have h := (key vecs query).imp fun hab => hab.1
    unfold rankedEntries jsSlice
    split <;> exact List.Pairwise.sublist (List.take_sublist _ _) h
  constructor
  · intro vecs query k
    have h2 : (sortScores (scoreEntries vecs query)).Pairwise fun a b =>
        b.2 < a.2 ∨ (a.2 = b.2 ∧ a.1 < b.1) := by
      refine (key vecs query).imp ?_
      rintro a b ⟨h1, htie⟩
      rcases lt_or_eq_of_le h1 with hlt | heq
      · exact Or.inl hlt
      · exact Or.inr ⟨heq.symm, htie (le_of_eq heq.symm)⟩
    unfold rankedEntries jsSlice
    split <;> exact List.Pairwise.sublist (List.take_sublist _ _) h2
  · intro store query k filter
    unfold MemoryVectorStore.similaritySearchVectorWithScore
    rcases hv : allSome store.vectors with _ | vecs
    · simp
    · simp only [Option.map_some', Option.getD_some]
      exact (ranked_le vecs query k).map _ fun a b hab => hab

/-! ### C1: length of the top-k result -/

/-- Counterexample to C1: for a negative `k` the result is not empty.  On a
store holding two documents, `k = -1` yields a result of length 1 — the
JavaScript `slice(0, -1)` drops one element from the end instead of returning
the empty sequence the claim requires for every `k ≤ 0`. -/
theorem topK_negative_k_nonempty :
    ((MemoryVectorStore.mk [docA, docB] [some [1], some [1]]).similaritySearchVectorWithScore
        [1] (-1) none).map List.length = some 1 := by
  have h1 : (MemoryVectorStore.mk [docA, docB]
        [some [1], some [1]]).similaritySearchVectorWithScore [1] (-1) none =
      some ((rankedEntries [[1], [1]] [1] (-1)).map fun e =>
        ((MemoryVectorStore.mk [docA, docB] [some [1], some [1]]).documents[e.1]?, e.2)) :=
    rfl
  rw [h1, Option.map_some']
  congr 1
  rw [List.length_map, rankedEntries, length_jsSlice, if_pos (by norm_num),
    length_sortScores, length_scoreEntries]
  decide

/-- C1 as amended: on a store whose vector slots are all genuine vectors the
top-k search succeeds, and for `k ≥ 0` its result has length
`min(k, store.size())` — in particular empty for `k = 0` and for an empty
store — while for `k < 0` (where JavaScript `slice(0, k)` counts from the
end) it has length `max(store.size() + k, 0)`, which is not empty in
general. -/
theorem topK_length (store : MemoryVectorStore) (vecs : List Vec) (query : Vec)
    (k : Int) (filter : Option Filter) (hwf : store.wf)
    (hv : allSome store.vectors = some vecs) :
    ∃ l, store.similaritySearchVectorWithScore query k filter = some l ∧
      (0 ≤ k → l.length = min k.toNat store.size) ∧
      (k < 0 → l.length = store.size - (-k).toNat) := by
  have hlen : vecs.length = store.size := by
    have h := allSome_length hv
    unfold MemoryVectorStore.wf at hwf
    unfold MemoryVectorStore.size
    omega
  refine ⟨(rankedEntries vecs query k).map fun e => (store.documents[e.1]?, e.2),
    ?_, ?_, ?_⟩
  · simp [MemoryVectorStore.similaritySearchVectorWithScore, hv]
  · intro hk
    rw [List.length_map, rankedEntries, length_jsSlice, if_neg (not_lt.mpr hk),
      length_sortScores, length_scoreEntries, hlen]
  · intro hk
    rw [List.length_map, rankedEntries, length_jsSlice, if_pos hk,
      length_sortScores, length_scoreEntries, hlen]

/-- Witness for C1 (amended) at a concrete two-document store with `k = 2`. -/
theorem topK_length_witness :
    (MemoryVectorStore.mk [docA, docB] [some [1], some [1]]).wf ∧
      allSome (MemoryVectorStore.mk [docA, docB] [some [1], some [1]]).vectors =
        some [[1], [1]] ∧
      (∃ l, (MemoryVectorStore.mk [docA, docB]
            [some [1], some [1]]).similaritySearchVectorWithScore [1] 2 none = some l ∧
        (0 ≤ (2 : Int) → l.length =
          min (2 : Int).toNat (MemoryVectorStore.mk [docA, docB]
            [some [1], some [1]]).size) ∧
        ((2 : Int) < 0 → l.length =
          (MemoryVectorStore.mk [docA, docB]
            [some [1], some [1]]).size - (-(2 : Int)).toNat)) :=
  ⟨rfl, rfl, topK_length _ [[1], [1]] [1] 2 none rfl rfl⟩

/-! ### C9: text assembly, result shape, empty-store search -/

lemma mem_of_mapOption {α β : Type} (f : α → Option β) :
    ∀ (l : List α) (out : List β), mapOption f l = some out →
      ∀ b ∈ out, ∃ a ∈ l, f a = some b := by
  intro l
  induction l with
  | nil =>
    intro out h b hb
    simp only [mapOption, Option.some.injEq] at h
    subst h
    simp at hb
  | cons a rest ih =>
    intro out h b hb
    simp only [mapOption] at h
    cases hfa : f a with
    | none => rw [hfa] at h; simp at h
    | some x =>
      rw [hfa] at h
      simp only [Option.some_bind] at h
      cases hrest : mapOption f rest with
      | none => rw [hrest] at h; simp at h
      | some xs =>
        rw [hrest] at h
        simp only [Option.map_some', Option.some.injEq] at h
        subst h
        rcases List.mem_cons.mp hb with rfl | hb
        · exact ⟨a, List.mem_cons_self _ _, hfa⟩
        · obtain ⟨a', ha', hfa'⟩ := ih xs hrest b hb
          exact ⟨a', List.mem_cons_of_mem _ ha', hfa'⟩

/-- C9: for every catalog item, ingestion builds the document with content
`"<name> - <description> - <price>"` and metadata `{source: identifier}`;
searching an empty store returns an empty sequence (not an error); and every
record a search returns carries exactly a stored document's metadata fields
and content string together with the score. -/
theorem ingest_content_and_search_shape :
    (∀ (embed : List String → List Vec) (products : List Product),
      (createStore embed products).documents = products.map fun product =>
        { pageContent := product.name ++ " - " ++ product.description ++ " - " ++
            product.price,
          metadata := [("source", product.id)] }) ∧
    (∀ (embedQ : String → Vec) (q : String) (c : Int),
      search embedQ MemoryVectorStore.empty q c = some []) ∧
    (∀ (embedQ : String → Vec) (store : MemoryVectorStore) (q : String) (c : Int),
      ∀ res ∈ (search embedQ store q c).getD [],
        ∃ doc ∈ store.documents,
          res.fields = doc.metadata ∧ res.content = doc.pageContent) := by
  refine ⟨?_, ?_, ?_⟩
  · intro embed products
    simp [createStore, MemoryVectorStore.addDocuments, MemoryVectorStore.addVectors,
      MemoryVectorStore.empty]
  · intro embedQ q c
    simp [search, MemoryVectorStore.similaritySearchVectorWithScore, allSome,
      rankedEntries, sortScores, scoreEntries, jsSlice, mapOption]
  · intro embedQ store q c res hres
    simp only [search] at hres
    rcases hv : store.similaritySearchVectorWithScore (embedQ q) c none with _ | results
    · rw [hv] at hres
      simp at hres
    · rw [hv] at hres
      simp only [Option.some_bind] at hres
      rcases hm : mapOption (fun r : Option Document × ℝ => r.1.map fun doc =>
          { fields := doc.metadata, content := doc.pageContent,
            score := r.2 : SearchResult }) results with _ | out
      · rw [hm] at hres
        simp at hres
      · rw [hm] at hres
        simp only [Option.getD_some] at hres
        obtain ⟨r, hr, hfr⟩ := mem_of_mapOption _ results out hm res hres
        obtain ⟨doc, hdoc, heq⟩ := Option.map_eq_some'.mp hfr
        -- locate the document inside the store
        unfold MemoryVectorStore.similaritySearchVectorWithScore at hv
        rcases hall : allSome store.vectors with _ | vecs
        · rw [hall] at hv
          simp at hv
        · rw [hall] at hv
          simp only [Option.map_some', Option.some.injEq] at hv
          subst hv
          obtain ⟨e, _, hre⟩ := List.mem_map.mp hr
          have hdoc' : store.documents[e.1]? = some doc := by
            rw [← hre] at hdoc
            exact hdoc
          refine ⟨doc, List.getElem?_mem hdoc', ?_⟩
          rw [← heq]
          exact ⟨rfl, rfl⟩

/-- The spec's end-to-end fixture product
`{id: "p1", name: "Watch", description: "Steel watch", price: 500}`. -/
def watchProduct : Product :=
  { id := "p1", name := "Watch", description := "Steel watch", price := "500" }

/-- A stubbed embedding provider mapping every text to `[1, 0]`. -/
def watchEmbed : List String → List Vec := fun texts => texts.map fun _ => [1, 0]

/-- The store built by ingesting the fixture product with the stubbed
provider. -/
def watchStore : MemoryVectorStore := createStore watchEmbed [watchProduct]

/-- The single result record the fixture search is expected to produce. -/
noncomputable def watchResult : SearchResult :=
  { fields := [("source", "p1")], content := "Watch - Steel watch - 500",
    score := similarity [1, 0] [1, 0] }

/-- Witness for C9: the end-to-end scenario — one ingested catalog item, a
stubbed embedding provider, query `"Watch"` with `k = 1` — produces exactly
one result whose fields are the item's `source` metadata, whose content is
`"Watch - Steel watch - 500"`, and whose score is the self-similarity of
`[1, 0]`; that result matches a stored document as C9 states. -/
theorem ingest_content_and_search_shape_witness :
    watchResult ∈ (search (fun _ => [1, 0]) watchStore "Watch" 1).getD [] ∧
      ∃ doc ∈ watchStore.documents,
        watchResult.fields = doc.metadata ∧ watchResult.content = doc.pageContent := by
  have hsearch : search (fun _ => [1, 0]) watchStore "Watch" 1 = some [watchResult] :=
    rfl
  have hmem : watchResult ∈ (search (fun _ => [1, 0]) watchStore "Watch" 1).getD [] := by
    rw [hsearch]
    simp
  exact ⟨hmem, ingest_content_and_search_shape.2.2 (fun _ => [1, 0]) watchStore
    "Watch" 1 watchResult hmem⟩

end VectorSearch
